import Mathlib

/-!
Verification of HPOBenchExperimentUtils against its specification.

Part 1 embeds `validate_benchmark` from
`src/HPOlibExperimentUtils/validate_benchmark.py`.  Configurations are
abstract (`Config := Nat`) and the Python `str(configuration)` keying is an
explicit parameter `strOf : Config → String`.  The validation run-history
dictionary is an association list with Python-dict semantics (update first
matching key in place, otherwise append).  Objective values are rationals;
the sentinel `-1234` from line 85 of the source is kept literally.
-/

set_option autoImplicit false

abbrev Config := Nat

abbrev Dict := List (String × ℚ)

/-- Python `d[k]` lookup (first entry with the key, `none` when absent). -/
def dget : Dict → String → Option ℚ
  | [], _ => none
  | (k', v') :: rest, k => if k' = k then some v' else dget rest k

/-- Python `d[k] = v`: overwrite the entry with key `k` in place, or append. -/
def dset : Dict → String → ℚ → Dict
  | [], k, v => [(k, v)]
  | (k', v') :: rest, k, v =>
      if k' = k then (k', v) :: rest else (k', v') :: dset rest k v

/-- Python `d.update(other)`: apply every entry of `other` in order. -/
def dupdate (d : Dict) : Dict → Dict
  | [] => d
  | (k, v) :: rest => dupdate (dset d k v) rest

/-- Modelled from the spec: `get_unvalidated_configurations` lives in
`HPOlibExperimentUtils.utils.validation_utils`, which is not under `src/`.
Per the spec ("the validation script reads in all the trajectory files found
in the given output path" and merges "configuration evaluations across
multiple run artifacts") it gathers the configurations of all loaded
trajectories; modelled as concatenation in file order. -/
def get_unvalidated_configurations (trajectories : List (List Config)) : List Config :=
  trajectories.flatten

/-- Line 85: `validation_results = {str(c): -1234 for c in unvalidated_configurations}`. -/
def initResults (strOf : Config → String) (cs : List Config) : Dict :=
  cs.foldl (fun d c => dset d (strOf c) (-1234)) []

/-- Lines 121-133: the validation loop.  Returns the configurations that were
actually evaluated via `objective_function_test` (in order, duplicates kept)
together with the final `validation_results` dictionary.  `objTest c` is the
`function_value` entry of `benchmark.objective_function_test(c, rng=rng)`. -/
def evalLoop (strOf : Config → String) (objTest : Config → ℚ) :
    List Config → Dict → List Config × Dict
  | [], d => ([], d)
  | c :: rest, d =>
      if dget d (strOf c) ≠ some (-1234 : ℚ) then
        evalLoop strOf objTest rest d
      else
        let d' := dset d (strOf c) (objTest c)
        let p := evalLoop strOf objTest rest d'
        (c :: p.1, p.2)

/-- Observable effects of a `validate_benchmark` run, in execution order. -/
inductive VEvent where
  | loadTrajectories : VEvent
  | instantiateBenchmark : VEvent
  | evalConfig (c : Config) : VEvent
  | writeTrajectory (i : Nat) : VEvent
deriving DecidableEq, Repr

/-- The inputs of `validate_benchmark` that its control flow inspects:
whether `output_dir` names an existing directory, the trajectory files found
under it, the already-validated run history (`load_validated_configurations`),
and the `recompute_all` flag. -/
structure VBInput where
  outputDirIsDir : Bool
  trajectories : List (List Config)
  alreadyEvaluated : Dict
  recomputeAll : Bool

/-- Embedding of `validate_benchmark` (lines 22-141).  Produces the trace of
effects and either an assertion error (line 80) or the final merged
validation-results dictionary. -/
def validate_benchmark (strOf : Config → String) (objTest : Config → ℚ)
    (inp : VBInput) : List VEvent × Except String Dict :=
  if ¬ inp.outputDirIsDir then
    ([], Except.error "Result folder doesn't exist")
  else
    let unvalidated_configurations := get_unvalidated_configurations inp.trajectories
    let validation_results := initResults strOf unvalidated_configurations
    let validation_results :=
      if ¬ inp.recomputeAll then dupdate validation_results inp.alreadyEvaluated
      else validation_results
    let p := evalLoop strOf objTest unvalidated_configurations validation_results
    ( [VEvent.loadTrajectories, VEvent.instantiateBenchmark]
        ++ p.1.map VEvent.evalConfig
        ++ (List.range inp.trajectories.length).map VEvent.writeTrajectory,
      Except.ok p.2)

/-- Whether an event is an evaluation of a configuration whose string
representation is `k`. -/
def isEvalOf (strOf : Config → String) (k : String) : VEvent → Bool
  | VEvent.evalConfig c => strOf c == k
  | _ => false

/-- How many times a configuration with string representation `k` was sent to
`objective_function_test` during the run described by the trace `evs`. -/
def evalCount (evs : List VEvent) (strOf : Config → String) (k : String) : Nat :=
  evs.countP (isEvalOf strOf k)

/-- The `validation_results` dictionary right before the evaluation loop
(lines 85-93): every trajectory configuration mapped to the sentinel `-1234`,
then, unless `recompute_all` is set, overwritten with the already-validated
results. -/
def mergedResults (strOf : Config → String) (inp : VBInput) : Dict :=
  if ¬ inp.recomputeAll then
    dupdate (initResults strOf (get_unvalidated_configurations inp.trajectories))
      inp.alreadyEvaluated
  else initResults strOf (get_unvalidated_configurations inp.trajectories)

/-! ### Dictionary lemmas -/

theorem dget_dset_self (d : Dict) (k : String) (v : ℚ) :
    dget (dset d k v) k = some v := by
  induction d with
  | nil => simp [dset, dget]
  | cons p rest ih =>
      obtain ⟨k', v'⟩ := p
      by_cases h : k' = k
      · simp [dset, dget, h]
      · simp [dset, dget, h, ih]

theorem dget_dset_ne (d : Dict) (k k' : String) (v : ℚ) (h : k' ≠ k) :
    dget (dset d k' v) k = dget d k := by
  induction d with
  | nil => simp [dset, dget, h]
  | cons p rest ih =>
      obtain ⟨k'', v''⟩ := p
      by_cases h' : k'' = k'
      · subst h'
        simp [dset, dget, h]
      · simp [dset, dget, h', ih]

theorem dget_dset_isSome (d : Dict) (k k' : String) (v : ℚ)
    (h : (dget d k).isSome) : (dget (dset d k' v) k).isSome := by
  by_cases hk : k' = k
  · subst hk
    simp [dget_dset_self]
  · rw [dget_dset_ne d k k' v hk]
    exact h

theorem dget_eq_none_of_not_mem (d : Dict) (k : String)
    (h : k ∉ d.map Prod.fst) : dget d k = none := by
  induction d with
  | nil => rfl
  | cons p rest ih =>
      obtain ⟨k', v'⟩ := p
      simp only [List.map_cons, List.mem_cons] at h
      push_neg at h
      have hk : ¬ (k' = k) := fun he => h.1 he.symm
      simp [dget, hk, ih h.2]

theorem dget_dupdate_none (other : Dict) (d : Dict) (k : String)
    (h : dget other k = none) : dget (dupdate d other) k = dget d k := by
  induction other generalizing d with
  | nil => rfl
  | cons p rest ih =>
      obtain ⟨k', v'⟩ := p
      by_cases hk : k' = k
      · simp [dget, hk] at h
      · simp only [dget, if_neg hk] at h
        simp only [dupdate]
        rw [ih (dset d k' v') h, dget_dset_ne d k k' v' hk]

theorem dget_dupdate_isSome (other : Dict) (d : Dict) (k : String)
    (h : (dget d k).isSome) : (dget (dupdate d other) k).isSome := by
  induction other generalizing d with
  | nil => exact h
  | cons p rest ih =>
      obtain ⟨k', v'⟩ := p
      exact ih (dset d k' v') (dget_dset_isSome d k k' v' h)

theorem dget_dupdate_some (other : Dict) (d : Dict) (k : String) (v : ℚ)
    (hnd : (other.map Prod.fst).Nodup) (h : dget other k = some v) :
    dget (dupdate d other) k = some v := by
  induction other generalizing d with
  | nil => simp [dget] at h
  | cons p rest ih =>
      obtain ⟨k', v'⟩ := p
      simp only [List.map_cons, List.nodup_cons] at hnd
      by_cases hk : k' = k
      · subst hk
        simp only [dget, if_pos rfl] at h
        obtain rfl : v' = v := by injection h
        simp only [dupdate]
        have hrest : dget rest k' = none :=
          dget_eq_none_of_not_mem rest k' hnd.1
        rw [dget_dupdate_none rest (dset d k' v') k' hrest, dget_dset_self]
      · simp only [dget, if_neg hk] at h
        exact ih (dset d k' v') hnd.2 h

theorem dget_foldl_init (strOf : Config → String) (cs : List Config)
    (d : Dict) (k : String) :
    dget (cs.foldl (fun d c => dset d (strOf c) (-1234)) d) k
      = if ∃ c ∈ cs, strOf c = k then some (-1234) else dget d k := by
  induction cs generalizing d with
  | nil => simp
  | cons c rest ih =>
      simp only [List.foldl_cons]
      rw [ih]
      by_cases hc : strOf c = k
      · have hself : dget (dset d (strOf c) (-1234)) k = some (-1234) := by
          rw [hc, dget_dset_self]
        have hr : ∃ c' ∈ c :: rest, strOf c' = k := ⟨c, List.mem_cons_self c rest, hc⟩
        rw [if_pos hr]
        split
        · rfl
        · exact hself
      · rw [dget_dset_ne d k (strOf c) (-1234) hc]
        simp [hc]

theorem dget_initResults (strOf : Config → String) (cs : List Config) (k : String) :
    dget (initResults strOf cs) k
      = if ∃ c ∈ cs, strOf c = k then some (-1234) else none := by
  rw [initResults, dget_foldl_init]
  rfl

/-! ### Validation-loop lemmas -/

theorem evalLoop_skip (strOf : Config → String) (objTest : Config → ℚ)
    (cs : List Config) (k : String) (v : ℚ) (hv : v ≠ (-1234 : ℚ)) :
    ∀ d : Dict, dget d k = some v →
      (∀ e ∈ (evalLoop strOf objTest cs d).1, strOf e ≠ k) ∧
        dget (evalLoop strOf objTest cs d).2 k = some v := by
  induction cs with
  | nil =>
      intro d hget
      exact ⟨by simp [evalLoop], by simpa [evalLoop] using hget⟩
  | cons c rest ih =>
      intro d hget
      by_cases hb : dget d (strOf c) ≠ some (-1234 : ℚ)
      · simpa [evalLoop, hb] using ih d hget
      · push_neg at hb
        have hck : strOf c ≠ k := by
          intro he
          rw [he, hget] at hb
          exact hv (by injection hb)
        have hget' : dget (dset d (strOf c) (objTest c)) k = some v := by
          rw [dget_dset_ne d k (strOf c) (objTest c) hck]
          exact hget
        obtain ⟨h1, h2⟩ := ih (dset d (strOf c) (objTest c)) hget'
        have hres1 : (evalLoop strOf objTest (c :: rest) d).1
            = c :: (evalLoop strOf objTest rest (dset d (strOf c) (objTest c))).1 := by
          simp [evalLoop, hb]
        have hres2 : (evalLoop strOf objTest (c :: rest) d).2
            = (evalLoop strOf objTest rest (dset d (strOf c) (objTest c))).2 := by
          simp [evalLoop, hb]
        refine ⟨?_, by rw [hres2]; exact h2⟩
        rw [hres1]
        intro e he
        rcases List.mem_cons.mp he with he | he
        · rw [he]; exact hck
        · exact h1 e he

theorem evalLoop_eval_of_sentinel (strOf : Config → String) (objTest : Config → ℚ)
    (cs : List Config) (k : String) :
    ∀ d : Dict, dget d k = some (-1234 : ℚ) → (∃ c ∈ cs, strOf c = k) →
      ∃ e ∈ (evalLoop strOf objTest cs d).1, strOf e = k := by
  induction cs with
  | nil =>
      intro d _ hmem
      simp at hmem
  | cons c rest ih =>
      intro d hget hmem
      by_cases hc : strOf c = k
      · have hb : ¬ (dget d (strOf c) ≠ some (-1234 : ℚ)) := by
          rw [hc, hget]
          simp
        refine ⟨c, ?_, hc⟩
        simp [evalLoop, hb]
      · obtain ⟨c', hc', hk'⟩ := hmem
        have hc'rest : c' ∈ rest := by
          rcases List.mem_cons.mp hc' with he | he
          · exact absurd hk' (he ▸ hc)
          · exact he
        by_cases hb : dget d (strOf c) ≠ some (-1234 : ℚ)
        · obtain ⟨e, he, hek⟩ := ih d hget ⟨c', hc'rest, hk'⟩
          exact ⟨e, by simpa [evalLoop, hb] using he, hek⟩
        · push_neg at hb
          have hget' : dget (dset d (strOf c) (objTest c)) k = some (-1234 : ℚ) := by
            rw [dget_dset_ne d k (strOf c) (objTest c) hc]
            exact hget
          obtain ⟨e, he, hek⟩ := ih (dset d (strOf c) (objTest c)) hget' ⟨c', hc'rest, hk'⟩
          refine ⟨e, ?_, hek⟩
          have hres1 : (evalLoop strOf objTest (c :: rest) d).1
              = c :: (evalLoop strOf objTest rest (dset d (strOf c) (objTest c))).1 := by
            simp [evalLoop, hb]
          rw [hres1]
          exact List.mem_cons_of_mem c he

theorem evalLoop_count_le_one (strOf : Config → String) (objTest : Config → ℚ)
    (hobj : ∀ c, objTest c ≠ (-1234 : ℚ)) (cs : List Config) (k : String) :
    ∀ d : Dict, ((evalLoop strOf objTest cs d).1.countP (fun c => strOf c == k)) ≤ 1 := by
  induction cs with
  | nil =>
      intro d
      simp [evalLoop]
  | cons c rest ih =>
      intro d
      by_cases hb : dget d (strOf c) ≠ some (-1234 : ℚ)
      · simpa [evalLoop, hb] using ih d
      · push_neg at hb
        have hres : (evalLoop strOf objTest (c :: rest) d).1
            = c :: (evalLoop strOf objTest rest (dset d (strOf c) (objTest c))).1 := by
          simp [evalLoop, hb]
        rw [hres, List.countP_cons]
        by_cases hck : strOf c = k
        · subst hck
          have hget' : dget (dset d (strOf c) (objTest c)) (strOf c) = some (objTest c) :=
            dget_dset_self d (strOf c) (objTest c)
          have hzero : ((evalLoop strOf objTest rest
              (dset d (strOf c) (objTest c))).1.countP (fun a => strOf a == strOf c)) = 0 := by
            rw [List.countP_eq_zero]
            intro a ha
            have h1 := (evalLoop_skip strOf objTest rest (strOf c) (objTest c) (hobj c)
              (dset d (strOf c) (objTest c)) hget').1 a ha
            simpa using h1
          simp [hzero]
        · have hfalse : ((fun a => strOf a == k) c : Bool) = false := by
            simpa using hck
          simp [hfalse, ih (dset d (strOf c) (objTest c))]

theorem evalLoop_isSome (strOf : Config → String) (objTest : Config → ℚ)
    (cs : List Config) (k : String) :
    ∀ d : Dict, (dget d k).isSome → (dget (evalLoop strOf objTest cs d).2 k).isSome := by
  induction cs with
  | nil =>
      intro d h
      simpa [evalLoop] using h
  | cons c rest ih =>
      intro d h
      by_cases hb : dget d (strOf c) ≠ some (-1234 : ℚ)
      · simpa [evalLoop, hb] using ih d h
      · have := ih (dset d (strOf c) (objTest c))
          (dget_dset_isSome d k (strOf c) (objTest c) h)
        simpa [evalLoop, hb] using this

/-! ### Running `validate_benchmark` -/

theorem validate_benchmark_run (strOf : Config → String) (objTest : Config → ℚ)
    (inp : VBInput) (hdir : inp.outputDirIsDir = true) :
    validate_benchmark strOf objTest inp =
      ( [VEvent.loadTrajectories, VEvent.instantiateBenchmark]
          ++ (evalLoop strOf objTest (get_unvalidated_configurations inp.trajectories)
              (mergedResults strOf inp)).1.map VEvent.evalConfig
          ++ (List.range inp.trajectories.length).map VEvent.writeTrajectory,
        Except.ok (evalLoop strOf objTest (get_unvalidated_configurations inp.trajectories)
            (mergedResults strOf inp)).2) := by
  rw [validate_benchmark, if_neg (by simp [hdir])]
  rfl

theorem evalCount_trace (evaluated : List Config) (m : Nat)
    (strOf : Config → String) (k : String) :
    evalCount ([VEvent.loadTrajectories, VEvent.instantiateBenchmark]
        ++ evaluated.map VEvent.evalConfig
        ++ (List.range m).map VEvent.writeTrajectory) strOf k
      = evaluated.countP (fun c => strOf c == k) := by
  simp only [evalCount, List.countP_append, List.countP_map]
  have h1 : List.countP (isEvalOf strOf k)
      [VEvent.loadTrajectories, VEvent.instantiateBenchmark] = 0 := by
    simp [List.countP_cons, isEvalOf]
  have h2 : (isEvalOf strOf k ∘ VEvent.evalConfig) = (fun c => strOf c == k) := rfl
  have h3 : List.countP (isEvalOf strOf k ∘ VEvent.writeTrajectory) (List.range m) = 0 :=
    List.countP_eq_zero.mpr (fun a _ => by simp [Function.comp, isEvalOf])
  rw [h1, h2, h3]
  omega

/-- **C1**, amended: provided the benchmark's `objective_function_test`
never returns the sentinel value `-1234`, the configurations of all
trajectory files found under `output_dir` are merged into a single mapping
keyed by the configuration's string representation (every such configuration
has an entry in the final dictionary), and each unique configuration is
re-evaluated at full fidelity via `objective_function_test` at most once per
run, even when it appears multiple times within or across trajectory
files. -/
theorem validate_unique_eval_at_most_once (strOf : Config → String)
    (objTest : Config → ℚ) (inp : VBInput)
    (hdir : inp.outputDirIsDir = true)
    (hobj : ∀ c, objTest c ≠ (-1234 : ℚ)) :
    (∃ d, (validate_benchmark strOf objTest inp).2 = Except.ok d ∧
        ∀ c ∈ get_unvalidated_configurations inp.trajectories,
          (dget d (strOf c)).isSome) ∧
    ∀ k, evalCount (validate_benchmark strOf objTest inp).1 strOf k ≤ 1 := by
  rw [validate_benchmark_run strOf objTest inp hdir]
  constructor
  · refine ⟨_, rfl, ?_⟩
    intro c hc
    apply evalLoop_isSome
    have hinit : (dget (initResults strOf
        (get_unvalidated_configurations inp.trajectories)) (strOf c)).isSome := by
      rw [dget_initResults, if_pos ⟨c, hc, rfl⟩]
      rfl
    rw [mergedResults]
    split
    · exact dget_dupdate_isSome _ _ _ hinit
    · exact hinit
  · intro k
    rw [evalCount_trace]
    exact evalLoop_count_le_one strOf objTest hobj _ k _

/-- **C1** witness: a run over two trajectory files in which the
configuration `0` occurs three times; the hypotheses hold and the
conclusion applies. -/
theorem validate_unique_eval_at_most_once_witness :
    (∃ d, (validate_benchmark (fun n => toString n) (fun _ => (5 : ℚ))
        ⟨true, [[0, 0], [0]], [], false⟩).2 = Except.ok d ∧
        ∀ c ∈ get_unvalidated_configurations [[0, 0], [0]],
          (dget d ((fun n : Config => toString n) c)).isSome) ∧
    evalCount (validate_benchmark (fun n => toString n) (fun _ => (5 : ℚ))
        ⟨true, [[0, 0], [0]], [], false⟩).1 (fun n => toString n) "0" ≤ 1 := by
  have h := validate_unique_eval_at_most_once (fun n => toString n)
    (fun _ => (5 : ℚ)) ⟨true, [[0, 0], [0]], [], false⟩ rfl
    (by intro c; show (5 : ℚ) ≠ (-1234 : ℚ); decide)
  exact ⟨h.1, h.2 "0"⟩

/-- **C1** counterexample: with a benchmark whose `objective_function_test`
returns exactly the sentinel value `-1234`, a configuration appearing twice
in a trajectory file is evaluated twice in a single run, refuting the "at
most once per run" part of the claim as stated. -/
theorem validate_duplicate_config_eval_twice :
    evalCount (validate_benchmark (fun n => toString n) (fun _ => (-1234 : ℚ))
        ⟨true, [[0, 0]], [], false⟩).1 (fun n => toString n) "0" = 2 := by
  decide

/-- **C3**, amended: when `recompute_all` is false, every configuration whose
result is present in the previously validated run history with a stored
value other than the sentinel `-1234` is skipped and not re-evaluated; when
`recompute_all` is true, the previously validated results are ignored and
every unique configuration from the trajectories is evaluated. -/
theorem validate_recompute_all_behaviour (strOf : Config → String)
    (objTest : Config → ℚ) (inp : VBInput)
    (hdir : inp.outputDirIsDir = true)
    (hnd : (inp.alreadyEvaluated.map Prod.fst).Nodup) :
    (inp.recomputeAll = false →
      ∀ k v, dget inp.alreadyEvaluated k = some v → v ≠ (-1234 : ℚ) →
        evalCount (validate_benchmark strOf objTest inp).1 strOf k = 0) ∧
    (inp.recomputeAll = true →
      ∀ c ∈ get_unvalidated_configurations inp.trajectories,
        1 ≤ evalCount (validate_benchmark strOf objTest inp).1 strOf (strOf c)) := by
  rw [validate_benchmark_run strOf objTest inp hdir]
  constructor
  · intro hrec k v hk hv
    rw [evalCount_trace, List.countP_eq_zero]
    intro a ha
    have hmerged : dget (mergedResults strOf inp) k = some v := by
      rw [mergedResults, if_pos (by simp [hrec])]
      exact dget_dupdate_some _ _ _ _ hnd hk
    have hskip := (evalLoop_skip strOf objTest _ k v hv
      (mergedResults strOf inp) hmerged).1 a ha
    simpa using hskip
  · intro hrec c hc
    rw [evalCount_trace]
    have hmerged : dget (mergedResults strOf inp) (strOf c) = some (-1234 : ℚ) := by
      rw [mergedResults, if_neg (by simp [hrec]),
        dget_initResults, if_pos ⟨c, hc, rfl⟩]
    obtain ⟨e, he, hek⟩ := evalLoop_eval_of_sentinel strOf objTest _ (strOf c)
      (mergedResults strOf inp) hmerged ⟨c, hc, rfl⟩
    exact List.countP_pos.mpr ⟨e, he, by simp [hek]⟩

/-- **C3** witness: with `recompute_all = false` the configuration `1`,
stored in the run history with value `7`, is never evaluated. -/
theorem validate_recompute_all_behaviour_witness :
    evalCount (validate_benchmark (fun n => toString n) (fun _ => (5 : ℚ))
        ⟨true, [[0, 1]], [("1", (7 : ℚ))], false⟩).1 (fun n => toString n) "1" = 0 := by
  have h := validate_recompute_all_behaviour (fun n => toString n) (fun _ => (5 : ℚ))
    ⟨true, [[0, 1]], [("1", (7 : ℚ))], false⟩ rfl (by decide)
  exact h.1 rfl "1" 7 (by decide) (by decide)

/-- **C3** counterexample: the configuration `0` is present in the
previously validated run history (with stored value `-1234`) and
`recompute_all` is false, yet it is evaluated once instead of being
skipped, refuting the claim as stated. -/
theorem validate_present_history_still_evaluated :
    dget [("0", (-1234 : ℚ))] "0" = some (-1234 : ℚ) ∧
    evalCount (validate_benchmark (fun n => toString n) (fun _ => (7 : ℚ))
        ⟨true, [[0]], [("0", (-1234 : ℚ))], false⟩).1 (fun n => toString n) "0" = 1 := by
  constructor
  · decide
  · decide

/-- **C7**: when `output_dir` does not name an existing directory,
`validate_benchmark` fails with the assertion error of line 80 before any
trajectory is loaded, any benchmark is instantiated, any configuration is
evaluated or any trajectory file is written: the effect trace is empty. -/
theorem validate_missing_output_dir (strOf : Config → String)
    (objTest : Config → ℚ) (inp : VBInput)
    (hdir : inp.outputDirIsDir = false) :
    (validate_benchmark strOf objTest inp).1 = [] ∧
    (validate_benchmark strOf objTest inp).2
      = Except.error "Result folder doesn't exist" := by
  rw [validate_benchmark, if_pos (by simp [hdir])]
  exact ⟨rfl, rfl⟩

/-- **C7** witness: a run whose `output_dir` is not a directory produces no
effect and an assertion error, despite non-empty trajectories and history. -/
theorem validate_missing_output_dir_witness :
    (validate_benchmark (fun n => toString n) (fun _ => (3 : ℚ))
        ⟨false, [[0, 1]], [("0", (2 : ℚ))], true⟩).1 = [] ∧
    (validate_benchmark (fun n => toString n) (fun _ => (3 : ℚ))
        ⟨false, [[0, 1]], [("0", (2 : ℚ))], true⟩).2
      = Except.error "Result folder doesn't exist" :=
  validate_missing_output_dir (fun n => toString n) (fun _ => (3 : ℚ))
    ⟨false, [[0, 1]], [("0", (2 : ℚ))], true⟩ rfl

/-- **C8**: `-1234` is the "not yet validated" sentinel: a configuration
whose stored validated function value equals `-1234` in the
already-validated run history is re-evaluated even when `recompute_all` is
false, because the skip test of line 126 compares the merged result against
`-1234`. -/
theorem validate_sentinel_value_reevaluated (strOf : Config → String)
    (objTest : Config → ℚ) (inp : VBInput)
    (hdir : inp.outputDirIsDir = true)
    (hnd : (inp.alreadyEvaluated.map Prod.fst).Nodup)
    (hrec : inp.recomputeAll = false) (c : Config)
    (hc : c ∈ get_unvalidated_configurations inp.trajectories)
    (hhist : dget inp.alreadyEvaluated (strOf c) = some (-1234 : ℚ)) :
    1 ≤ evalCount (validate_benchmark strOf objTest inp).1 strOf (strOf c) := by
  rw [validate_benchmark_run strOf objTest inp hdir, evalCount_trace]
  have hmerged : dget (mergedResults strOf inp) (strOf c) = some (-1234 : ℚ) := by
    rw [mergedResults, if_pos (by simp [hrec])]
    exact dget_dupdate_some _ _ _ _ hnd hhist
  obtain ⟨e, he, hek⟩ := evalLoop_eval_of_sentinel strOf objTest _ (strOf c)
    (mergedResults strOf inp) hmerged ⟨c, hc, rfl⟩
  exact List.countP_pos.mpr ⟨e, he, by simp [hek]⟩

/-- **C8** witness: configuration `4` is stored in the run history with the
sentinel value `-1234`, `recompute_all` is false, and it is evaluated. -/
theorem validate_sentinel_value_reevaluated_witness :
    1 ≤ evalCount (validate_benchmark (fun n => toString n) (fun _ => (9 : ℚ))
        ⟨true, [[4]], [("4", (-1234 : ℚ))], false⟩).1 (fun n => toString n)
        ((fun n : Config => toString n) 4) :=
  validate_sentinel_value_reevaluated (fun n => toString n) (fun _ => (9 : ℚ))
    ⟨true, [[4]], [("4", (-1234 : ℚ))], false⟩ rfl (by decide) rfl 4
    (by decide) (by decide)

/-!
Part 2 embeds the two optimizer constructors of
`src/HPOBenchExperimentUtils/optimizer/fabolas_optimizer.py`.  ConfigSpace
hyperparameters are modelled by the kinds the `isinstance` chains inspect,
numeric values by exact rationals, numpy arrays by lists.
-/

/-- Python `int(x)`: truncation toward zero. -/
def pyint (q : ℚ) : ℤ := if 0 ≤ q then ⌊q⌋ else ⌈q⌉

/-- The ConfigSpace hyperparameter kinds the two constructors distinguish.
`constant` stands for any kind outside the four inspected ones
(`cs.Constant`, normal-distributed hyperparameters, ...). -/
inductive HPType where
  | uniformInt (lower upper : ℤ)
  | uniformFloat (lower upper : ℚ)
  | ordinal (seq : List ℚ)
  | categorical (choices : List ℚ)
  | constant (value : ℚ)
deriving DecidableEq, Repr

/-- The pieces of the benchmark object that `FabolasOptimizer.__init__`
inspects: presence of the `X_train`/`y_train` attributes on the wrapped
benchmark and the number of training rows `y_train.shape[0]`. -/
structure FabolasBenchmark where
  hasXTrain : Bool
  hasYTrain : Bool
  yTrainRows : ℕ
deriving DecidableEq, Repr

/-- The state `FabolasOptimizer.__init__` establishes and `run` consumes. -/
structure FabolasState where
  s_min : ℚ
  s_max : ℚ
  n_init : ℤ
deriving DecidableEq, Repr

/-- `FabolasOptimizer.__init__` (lines 28-65).  A uniform integer fidelity
gives `s_min = max(lower, 1)` and `s_max = upper`; a uniform float fidelity
asserts the `X_train`/`y_train` attributes and bounds within `[0, 1]` and
scales by the number of training rows; any other fidelity kind raises a
`RuntimeError` (lines 52-54).  `n_init` is line 64. -/
def FabolasOptimizer_init (mainFidelity : HPType) (bench : FabolasBenchmark)
    (init_samples_per_dim : ℚ) (dimensionality : ℕ) : Except String FabolasState :=
  match mainFidelity with
  | HPType.uniformInt lower upper =>
      Except.ok { s_min := max (lower : ℚ) 1, s_max := (upper : ℚ),
                  n_init := pyint (init_samples_per_dim * dimensionality) }
  | HPType.uniformFloat lower upper =>
      if ¬ bench.hasXTrain then
        Except.error "AssertionError: The benchmark object is expected to have an attribute X_train"
      else if ¬ bench.hasYTrain then
        Except.error "AssertionError: The benchmark object is expected to have an attribute y_train"
      else if ¬ (0 ≤ lower ∧ upper ≤ 1) then
        Except.error "AssertionError: fidelity bounds must lie within the unit interval"
      else
        Except.ok { s_min := max (lower * bench.yTrainRows) 1,
                    s_max := upper * bench.yTrainRows,
                    n_init := pyint (init_samples_per_dim * dimensionality) }
  | _ =>
      Except.error "RuntimeError: The benchmark's main fidelity parameter must be either a float or int"

/-- numpy `linspace(start, stop, num)` over exact rationals: `num` evenly
spaced samples, endpoint included (`[start]` when `num = 1`). -/
def np_linspace (start stop : ℚ) (num : ℕ) : List ℚ :=
  if num = 1 then [start]
  else (List.range num).map
    (fun i : ℕ => start + (stop - start) * (i : ℚ) / ((num : ℚ) - 1))

/-- numpy `arange(a, b)` over integers: `a, a+1, ..., b-1`. -/
def np_arange (a b : ℤ) : List ℤ :=
  (List.range (b - a).toNat).map (fun i : ℕ => a + (i : ℤ))

/-- numpy `arange(a, b)` with unit step over rationals. -/
def np_arangeQ (a b : ℚ) : List ℚ :=
  (List.range ⌈b - a⌉.toNat).map (fun i : ℕ => a + (i : ℚ))

/-- numpy `tile(l, n)` for one-dimensional `l`. -/
def np_tile (l : List ℤ) (n : ℕ) : List ℤ :=
  (List.replicate n l).flatten

/-- numpy 1-D indexing with Python negative-index wrapping. -/
def npGet (l : List ℚ) (i : ℤ) : ℚ :=
  if 0 ≤ i then l.getD i.toNat 0 else l.getD ((l.length : ℤ) + i).toNat 0

/-- The settings `FabolasWithMUMBO.__init__` reads via
`get_mandatory_optimizer_setting` (lines 96, 144, 148-155). -/
structure MumboSettings where
  num_fidelity_values : ℕ
  init_samples_per_dim : ℚ
  update_interval : ℕ
  marginalize_hypers : Bool
  num_mc_samples : ℕ
  grid_size : ℕ
deriving DecidableEq, Repr

/-- The state `FabolasWithMUMBO.__init__` establishes that the later phases
read: the discrete information sources and `n_init`. -/
structure MumboState where
  info_sources : List ℚ
  n_init : ℤ
deriving DecidableEq, Repr

/-- `FabolasWithMUMBO.__init__` (lines 81-157): the fidelity discretization
of lines 95-109 and `n_init` of line 144.  A main fidelity matching none of
the four `isinstance` checks leaves `self.info_sources` unset, so line 115
(`self.info_sources.shape[0]`) raises an `AttributeError`, modelled as the
error case. -/
def FabolasWithMUMBO_init (mainFidelity : HPType) (min_budget max_budget : ℚ)
    (settings : MumboSettings) (dimensionality : ℕ) : Except String MumboState :=
  match mainFidelity with
  | HPType.uniformFloat _ _ =>
      Except.ok { info_sources :=
                    np_linspace min_budget max_budget settings.num_fidelity_values,
                  n_init := pyint (settings.init_samples_per_dim * dimensionality) }
  | HPType.ordinal seq =>
      Except.ok { info_sources := seq,
                  n_init := pyint (settings.init_samples_per_dim * dimensionality) }
  | HPType.categorical choices =>
      Except.ok { info_sources := choices,
                  n_init := pyint (settings.init_samples_per_dim * dimensionality) }
  | HPType.uniformInt _ _ =>
      Except.ok { info_sources := np_arangeQ min_budget (max_budget + 1),
                  n_init := pyint (settings.init_samples_per_dim * dimensionality) }
  | _ =>
      Except.error "AttributeError: FabolasWithMUMBO object has no attribute info_sources"

/-- Line 116: `self.fidelity_emukit_to_cs = lambda s:
\x7bself.main_fidelity.name: self.info_sources[int(s) - 1]\x7d`. -/
def fidelity_emukit_to_cs (fidName : String) (info_sources : List ℚ) (s : ℚ) :
    String × ℚ :=
  (fidName, npGet info_sources (pyint s - 1))

/-- The index bounds of `SmarterInformationSourceParameter(n, start_ind=1)`.
Modelled from the spec: `emukit_utils` is not under `src/`; per the code
comment of lines 111-114 the custom parameter exists precisely so that the
`n` discrete information-source indices begin at 1, so its bounds are
`(1, n)`. -/
def smarterISPBounds (num_sources : ℕ) : ℤ × ℤ := (1, (num_sources : ℤ))

/-- Lines 175-179 of `_setup_model`:
`n_reps = n_init // info_sources.shape[0] + 1`;
`s_min, s_max = emukit_fidelity.bounds[0]`;
`sample_fidelities = np.tile(np.arange(s_min, s_max + 1), n_reps)[:n_init]`. -/
def sample_fidelities (num_sources : ℕ) (n_init : ℕ) : List ℤ :=
  np_tile (np_arange (smarterISPBounds num_sources).1
      ((smarterISPBounds num_sources).2 + 1)) (n_init / num_sources + 1)
    |>.take n_init

/-- The 2-D numpy input of the MUMBO benchmark wrapper (lines 118-126): a
1-D array is a single row, a 2-D array is a row list. -/
inductive NpInput where
  | one (row : List ℚ)
  | two (rows : List (List ℚ))

/-- Lines 125-126: `if inp.ndim == 1: inp = np.expand_dims(inp, axis=0)`. -/
def npRows : NpInput → List (List ℚ)
  | NpInput.one r => [r]
  | NpInput.two rs => rs

/-- Lines 118-141: the benchmark wrapper handed to emukit.  `obj x s` stands
for decoding the configuration from the components `x`, mapping the emukit
fidelity index `s` through `fidelity_emukit_to_cs` and calling
`benchmark.objective_function`, returning `(function_value, cost)`.  The
loop body indexes `inp[0, :-1]` and `inp[0, -1]`: every iteration reads the
first row.  The two returned lists are the `.reshape(-1, 1)` column
vectors. -/
def mumbo_benchmark_wrapper (obj : List ℚ → ℚ → ℚ × ℚ) (inp : NpInput) :
    List (List ℚ) × List (List ℚ) :=
  let rows := npRows inp
  let results := (List.range rows.length).map (fun _ =>
    obj (rows.getD 0 []).dropLast ((rows.getD 0 []).getLast?.getD 0))
  (results.map (fun p => [p.1]), results.map (fun p => [p.2]))

/-- **C2**: for every main fidelity hyperparameter whose type is not among
the supported fidelity types, constructing the optimizer fails with an
error that propagates to the caller with no recovery: `FabolasOptimizer`
supports uniform integer and uniform float (anything else raises the
`RuntimeError` of lines 52-54); `FabolasWithMUMBO` supports uniform float,
ordinal, categorical and uniform integer (anything else leaves
`info_sources` unset and line 115 raises an `AttributeError`). -/
theorem fabolas_unsupported_fidelity_error (mainFidelity : HPType)
    (bench : FabolasBenchmark) (ispd : ℚ) (dim : ℕ)
    (minB maxB : ℚ) (settings : MumboSettings)
    (hni : ∀ lo hi : ℤ, mainFidelity ≠ HPType.uniformInt lo hi)
    (hnf : ∀ lo hi : ℚ, mainFidelity ≠ HPType.uniformFloat lo hi) :
    (∃ msg, FabolasOptimizer_init mainFidelity bench ispd dim = Except.error msg) ∧
    ((∀ seq, mainFidelity ≠ HPType.ordinal seq) →
      (∀ choices, mainFidelity ≠ HPType.categorical choices) →
      ∃ msg, FabolasWithMUMBO_init mainFidelity minB maxB settings dim
        = Except.error msg) := by
  cases mainFidelity with
  | uniformInt lo hi => exact absurd rfl (hni lo hi)
  | uniformFloat lo hi => exact absurd rfl (hnf lo hi)
  | ordinal seq =>
      refine ⟨⟨_, rfl⟩, ?_⟩
      intro ho _
      exact absurd rfl (ho seq)
  | categorical choices =>
      refine ⟨⟨_, rfl⟩, ?_⟩
      intro _ hc
      exact absurd rfl (hc choices)
  | constant v =>
      exact ⟨⟨_, rfl⟩, fun _ _ => ⟨_, rfl⟩⟩

/-- **C2** witness: a constant main fidelity (supported by neither
constructor) makes both constructors fail. -/
theorem fabolas_unsupported_fidelity_error_witness :
    (∃ msg, FabolasOptimizer_init (HPType.constant 3) ⟨true, true, 10⟩ 2 4
        = Except.error msg) ∧
    (∃ msg, FabolasWithMUMBO_init (HPType.constant 3) 0 1 ⟨5, 2, 1, true, 10, 20⟩ 4
        = Except.error msg) := by
  have h := fabolas_unsupported_fidelity_error (HPType.constant 3) ⟨true, true, 10⟩
    2 4 0 1 ⟨5, 2, 1, true, 10, 20⟩
    (fun _ _ he => HPType.noConfusion he) (fun _ _ he => HPType.noConfusion he)
  exact ⟨h.1, h.2 (fun _ he => HPType.noConfusion he) (fun _ he => HPType.noConfusion he)⟩

/-- **C10**: whenever `FabolasOptimizer.__init__` succeeds, the minimum
dataset-subsampling size `s_min` is at least 1: for a uniform integer main
fidelity it equals `max(lower, 1)`, and for a uniform float main fidelity
(whose bounds must lie in `[0, 1]`) it equals
`max(lower * y_train.shape[0], 1)`; so the optimizer never runs with
`s_min` below 1, even when the fidelity's lower bound is 0. -/
theorem fabolas_s_min_at_least_one (mainFidelity : HPType)
    (bench : FabolasBenchmark) (ispd : ℚ) (dim : ℕ) (st : FabolasState)
    (hok : FabolasOptimizer_init mainFidelity bench ispd dim = Except.ok st) :
    (1 : ℚ) ≤ st.s_min ∧
    (∀ lo hi : ℤ, mainFidelity = HPType.uniformInt lo hi →
      st.s_min = max (lo : ℚ) 1) ∧
    (∀ lo hi : ℚ, mainFidelity = HPType.uniformFloat lo hi →
      0 ≤ lo ∧ hi ≤ 1 ∧ st.s_min = max (lo * bench.yTrainRows) 1) := by
  cases mainFidelity with
  | uniformInt lo hi =>
      simp only [FabolasOptimizer_init, Except.ok.injEq] at hok
      subst hok
      refine ⟨le_max_right _ _, ?_, fun _ _ he => HPType.noConfusion he⟩
      intro lo' hi' he
      injection he with h1 h2
      subst h1
      rfl
  | uniformFloat lo hi =>
      simp only [FabolasOptimizer_init] at hok
      split at hok
      · simp at hok
      · split at hok
        · simp at hok
        · split at hok
          · simp at hok
          · rename_i hB
            rw [not_not] at hB
            simp only [Except.ok.injEq] at hok
            subst hok
            refine ⟨le_max_right _ _, fun _ _ he => HPType.noConfusion he, ?_⟩
            intro lo' hi' he
            injection he with h1 h2
            subst h1
            subst h2
            exact ⟨hB.1, hB.2, rfl⟩
  | ordinal seq => simp [FabolasOptimizer_init] at hok
  | categorical choices => simp [FabolasOptimizer_init] at hok
  | constant v => simp [FabolasOptimizer_init] at hok

/-- **C10** witness: a uniform integer fidelity with lower bound `-5` gives
a successful construction with `s_min = max(-5, 1) = 1 ≥ 1`. -/
theorem fabolas_s_min_at_least_one_witness :
    ∃ st, FabolasOptimizer_init (HPType.uniformInt (-5) 10) ⟨true, true, 100⟩ 2 3
        = Except.ok st ∧ (1 : ℚ) ≤ st.s_min := by
  refine ⟨_, rfl, ?_⟩
  exact (fabolas_s_min_at_least_one (HPType.uniformInt (-5) 10) ⟨true, true, 100⟩
    2 3 _ rfl).1

/-! ### numpy lemmas -/

theorem getD_map_range {α : Type} (f : ℕ → α) (n i : ℕ) (d : α) (hi : i < n) :
    ((List.range n).map f).getD i d = f i := by
  rw [List.getD_eq_getElem?_getD, List.getElem?_map, List.getElem?_range hi]
  rfl

theorem np_linspace_length (a b : ℚ) (n : ℕ) : (np_linspace a b n).length = n := by
  rw [np_linspace]
  split
  · rename_i h
    simp [h]
  · simp

theorem np_linspace_getD (a b : ℚ) (n i : ℕ) (hn : 2 ≤ n) (hi : i < n) :
    (np_linspace a b n).getD i 0 = a + (b - a) * i / ((n : ℚ) - 1) := by
  rw [np_linspace, if_neg (by omega)]
  exact getD_map_range _ n i 0 hi

theorem np_linspace_first (a b : ℚ) (n : ℕ) (hn : 2 ≤ n) :
    (np_linspace a b n).getD 0 0 = a := by
  rw [np_linspace_getD a b n 0 hn (by omega)]
  simp

theorem np_linspace_last (a b : ℚ) (n : ℕ) (hn : 2 ≤ n) :
    (np_linspace a b n).getD (n - 1) 0 = b := by
  rw [np_linspace_getD a b n (n - 1) hn (by omega)]
  have hne : (n : ℚ) - 1 ≠ 0 := by
    have h2 : (2 : ℚ) ≤ (n : ℚ) := by exact_mod_cast hn
    linarith
  have hcast : ((n - 1 : ℕ) : ℚ) = (n : ℚ) - 1 := by
    have h1 : 1 ≤ n := by omega
    push_cast [h1]
    ring
  rw [hcast, mul_div_assoc, div_self hne, mul_one]
  ring

theorem pyint_natCast (s : ℕ) : pyint (s : ℚ) = (s : ℤ) := by
  rw [pyint, if_pos (by positivity)]
  exact Int.floor_natCast s

/-- **C4**: when `FabolasWithMUMBO` is constructed with a uniform float main
fidelity, the discrete information sources are exactly
`num_fidelity_values` evenly spaced values from `min_budget` to
`max_budget` inclusive, and `fidelity_emukit_to_cs` sends the 1-based
fidelity index `s` to the `s`-th of these values under the main fidelity's
name. -/
theorem mumbo_float_fidelity_discretization (lo hi minB maxB : ℚ)
    (settings : MumboSettings) (dim : ℕ) (fidName : String)
    (hn : 2 ≤ settings.num_fidelity_values) :
    ∃ st, FabolasWithMUMBO_init (HPType.uniformFloat lo hi) minB maxB settings dim
        = Except.ok st ∧
      st.info_sources.length = settings.num_fidelity_values ∧
      (∀ i < settings.num_fidelity_values,
        st.info_sources.getD i 0
          = minB + (maxB - minB) * i / ((settings.num_fidelity_values : ℚ) - 1)) ∧
      st.info_sources.getD 0 0 = minB ∧
      st.info_sources.getD (settings.num_fidelity_values - 1) 0 = maxB ∧
      (∀ s : ℕ, 1 ≤ s → s ≤ settings.num_fidelity_values →
        fidelity_emukit_to_cs fidName st.info_sources (s : ℚ)
          = (fidName, st.info_sources.getD (s - 1) 0)) := by
  refine ⟨_, rfl, np_linspace_length _ _ _, ?_, np_linspace_first _ _ _ hn,
    np_linspace_last _ _ _ hn, ?_⟩
  · intro i hi
    exact np_linspace_getD _ _ _ i hn hi
  · intro s hs1 hs2
    rw [fidelity_emukit_to_cs, pyint_natCast, npGet, if_pos (by omega)]
    have hx : ((s : ℤ) - 1).toNat = s - 1 := by omega
    rw [hx]

/-- **C4** witness: three fidelity levels between budgets 0 and 1: the
sources are `0, 1/2, 1` and the index map hits the second one. -/
theorem mumbo_float_fidelity_discretization_witness :
    ∃ st, FabolasWithMUMBO_init (HPType.uniformFloat 0 1) 0 1
        ⟨3, 2, 1, true, 10, 20⟩ 2 = Except.ok st ∧
      st.info_sources.length = 3 ∧
      st.info_sources.getD 0 0 = 0 ∧
      st.info_sources.getD 2 0 = 1 ∧
      fidelity_emukit_to_cs "budget" st.info_sources ((2 : ℕ) : ℚ)
        = ("budget", st.info_sources.getD 1 0) := by
  obtain ⟨st, h0, h1, _, h3, h4, h5⟩ :=
    mumbo_float_fidelity_discretization 0 1 0 1 ⟨3, 2, 1, true, 10, 20⟩ 2 "budget"
      (by decide)
  exact ⟨st, h0, h1, h3, h4, h5 2 (by decide) (by decide)⟩

/-- **C9**: for every 2-D input with `n ≥ 1` rows passed to
`FabolasWithMUMBO`'s benchmark wrapper (a 1-D input is first promoted to
one row), the returned objective and cost arrays each have shape `(n, 1)`,
and every one of the `n` entries is computed by evaluating the
configuration and fidelity taken from the first input row, regardless of
the contents of the other rows. -/
theorem mumbo_wrapper_uses_first_row (obj : List ℚ → ℚ → ℚ × ℚ) (inp : NpInput)
    (hn : 1 ≤ (npRows inp).length) :
    (mumbo_benchmark_wrapper obj inp).1.length = (npRows inp).length ∧
    (mumbo_benchmark_wrapper obj inp).2.length = (npRows inp).length ∧
    (∀ row ∈ (mumbo_benchmark_wrapper obj inp).1,
      row = [(obj ((npRows inp).getD 0 []).dropLast
        (((npRows inp).getD 0 []).getLast?.getD 0)).1]) ∧
    (∀ row ∈ (mumbo_benchmark_wrapper obj inp).2,
      row = [(obj ((npRows inp).getD 0 []).dropLast
        (((npRows inp).getD 0 []).getLast?.getD 0)).2]) := by
  refine ⟨by simp [mumbo_benchmark_wrapper], by simp [mumbo_benchmark_wrapper],
    ?_, ?_⟩
  · intro row hrow
    simp only [mumbo_benchmark_wrapper, List.mem_map, List.mem_range] at hrow
    obtain ⟨p, ⟨i, hi, hp⟩, hrowp⟩ := hrow
    rw [← hrowp, ← hp]
  · intro row hrow
    simp only [mumbo_benchmark_wrapper, List.mem_map, List.mem_range] at hrow
    obtain ⟨p, ⟨i, hi, hp⟩, hrowp⟩ := hrow
    rw [← hrowp, ← hp]

/-- **C9** witness: on the two-row input `[[1, 2], [3, 4]]` with
`obj x s = (head x, s)`, both output rows are `[1]`, computed from the
first input row `[1, 2]` (the second row would give `[3]`). -/
theorem mumbo_wrapper_uses_first_row_witness :
    1 ≤ (npRows (NpInput.two [[1, 2], [3, 4]])).length ∧
    (mumbo_benchmark_wrapper (fun x s => (x.headD 0, s))
        (NpInput.two [[1, 2], [3, 4]])).1.length = 2 ∧
    ∀ row ∈ (mumbo_benchmark_wrapper (fun x s => (x.headD 0, s))
        (NpInput.two [[1, 2], [3, 4]])).1, row = [1] := by
  have h := mumbo_wrapper_uses_first_row (fun x s => ((x.headD 0 : ℚ), s))
    (NpInput.two [[1, 2], [3, 4]]) (by decide)
  refine ⟨by decide, h.1, ?_⟩
  intro row hrow
  rw [h.2.2.1 row hrow]
  decide

theorem np_arange_length (a b : ℤ) : (np_arange a b).length = (b - a).toNat := by
  simp [np_arange]

theorem np_arange_getD (a b : ℤ) (i : ℕ) (hi : i < (b - a).toNat) :
    (np_arange a b).getD i 0 = a + (i : ℤ) := by
  rw [np_arange]
  exact getD_map_range _ _ i 0 hi

theorem np_tile_succ (l : List ℤ) (n : ℕ) : np_tile l (n + 1) = l ++ np_tile l n := by
  simp [np_tile, List.replicate_succ]

theorem np_tile_length (l : List ℤ) (n : ℕ) : (np_tile l n).length = n * l.length := by
  induction n with
  | zero => simp [np_tile]
  | succ n ih =>
      rw [np_tile_succ, List.length_append, ih]
      ring

theorem getD_take {α : Type} (l : List α) (n i : ℕ) (d : α) (hi : i < n) :
    (l.take n).getD i d = l.getD i d := by
  rw [List.getD_eq_getElem?_getD, List.getD_eq_getElem?_getD,
    List.getElem?_take_of_lt hi]

theorem np_tile_getD (l : List ℤ) (hl : 0 < l.length) (n : ℕ) :
    ∀ i, i < n * l.length → (np_tile l n).getD i 0 = l.getD (i % l.length) 0 := by
  induction n with
  | zero =>
      intro i hi
      simp at hi
  | succ n ih =>
      intro i hi
      rw [np_tile_succ]
      by_cases hc : i < l.length
      · rw [List.getD_append _ _ _ _ hc, Nat.mod_eq_of_lt hc]
      · have hge : l.length ≤ i := Nat.le_of_not_lt hc
        rw [List.getD_append_right _ _ _ _ hge]
        rw [ih (i - l.length) (by rw [Nat.succ_mul] at hi; omega)]
        congr 1
        exact (Nat.mod_eq_sub_mod hge).symm

theorem mumbo_init_n_init (mainFidelity : HPType) (minB maxB : ℚ)
    (settings : MumboSettings) (dim : ℕ) (st : MumboState)
    (hok : FabolasWithMUMBO_init mainFidelity minB maxB settings dim
      = Except.ok st) :
    st.n_init = pyint (settings.init_samples_per_dim * (dim : ℚ)) := by
  cases mainFidelity with
  | uniformInt lo hi =>
      simp only [FabolasWithMUMBO_init, Except.ok.injEq] at hok
      subst hok
      rfl
  | uniformFloat lo hi =>
      simp only [FabolasWithMUMBO_init, Except.ok.injEq] at hok
      subst hok
      rfl
  | ordinal seq =>
      simp only [FabolasWithMUMBO_init, Except.ok.injEq] at hok
      subst hok
      rfl
  | categorical choices =>
      simp only [FabolasWithMUMBO_init, Except.ok.injEq] at hok
      subst hok
      rfl
  | constant v => simp [FabolasWithMUMBO_init] at hok

theorem sample_fidelities_spec (ns n : ℕ) (hns : 1 ≤ ns) :
    (sample_fidelities ns n).length = n ∧
    ∀ i < n, (sample_fidelities ns n).getD i 0 = 1 + ((i % ns : ℕ) : ℤ) := by
  have hal : (np_arange (smarterISPBounds ns).1
      ((smarterISPBounds ns).2 + 1)).length = ns := by
    rw [np_arange_length]
    simp only [smarterISPBounds]
    omega
  have hd := Nat.div_add_mod n ns
  have hm : n % ns < ns := Nat.mod_lt _ (by omega)
  have htot : n < (n / ns + 1) * ns := by
    have h3 : (n / ns + 1) * ns = ns * (n / ns) + ns := by ring
    calc n = ns * (n / ns) + n % ns := hd.symm
      _ < ns * (n / ns) + ns := Nat.add_lt_add_left hm _
      _ = (n / ns + 1) * ns := h3.symm
  constructor
  · rw [sample_fidelities, List.length_take, np_tile_length, hal]
    exact Nat.min_eq_left (le_of_lt htot)
  · intro i hi
    have hlp : 0 < (np_arange (smarterISPBounds ns).1
        ((smarterISPBounds ns).2 + 1)).length := by
      rw [hal]
      omega
    have hilt : i < (n / ns + 1) * (np_arange (smarterISPBounds ns).1
        ((smarterISPBounds ns).2 + 1)).length := by
      rw [hal]
      exact lt_trans hi htot
    rw [sample_fidelities, getD_take _ _ _ _ hi,
      np_tile_getD _ hlp _ i hilt, hal]
    have hmod : i % ns < (((smarterISPBounds ns).2 + 1)
        - (smarterISPBounds ns).1).toNat := by
      have heq : (((smarterISPBounds ns).2 + 1) - (smarterISPBounds ns).1).toNat
          = ns := by
        simp only [smarterISPBounds]
        omega
      rw [heq]
      exact Nat.mod_lt _ (by omega)
    rw [np_arange_getD _ _ _ hmod]
    rfl

/-- **C5**: `FabolasWithMUMBO`'s warm-start design generates exactly
`n_init = int(init_samples_per_dim * dimensionality)` initial points
(line 144), and assigns each point a fidelity index by cycling in order
through the integer range from the fidelity parameter's lower bound `1` to
its upper bound (the number of information sources): the array obtained by
tiling that range `n_init // num-of-sources + 1` times and truncating to
the first `n_init` entries has exactly `n_init` entries, the `i`-th being
`1 + (i mod num-of-sources)`. -/
theorem mumbo_warm_start_fidelities (mainFidelity : HPType) (minB maxB : ℚ)
    (settings : MumboSettings) (dim : ℕ) (st : MumboState)
    (hok : FabolasWithMUMBO_init mainFidelity minB maxB settings dim
      = Except.ok st)
    (hns : 1 ≤ st.info_sources.length) :
    st.n_init = pyint (settings.init_samples_per_dim * (dim : ℚ)) ∧
    (sample_fidelities st.info_sources.length st.n_init.toNat).length
      = st.n_init.toNat ∧
    ∀ i < st.n_init.toNat,
      (sample_fidelities st.info_sources.length st.n_init.toNat).getD i 0
        = 1 + ((i % st.info_sources.length : ℕ) : ℤ) :=
  ⟨mumbo_init_n_init mainFidelity minB maxB settings dim st hok,
    (sample_fidelities_spec st.info_sources.length st.n_init.toNat hns).1,
    (sample_fidelities_spec st.info_sources.length st.n_init.toNat hns).2⟩

/-- **C5** witness: three information sources, `n_init = int(2 * 2) = 4`
warm-start points, fidelity indices cycling `1, 2, 3, 1`. -/
theorem mumbo_warm_start_fidelities_witness :
    ∃ st, FabolasWithMUMBO_init (HPType.uniformFloat 0 1) 0 1
        ⟨3, 2, 1, true, 10, 20⟩ 2 = Except.ok st ∧
      st.n_init = pyint ((2 : ℚ) * ((2 : ℕ) : ℚ)) ∧
      (sample_fidelities st.info_sources.length st.n_init.toNat).length
        = st.n_init.toNat ∧
      ∀ i < st.n_init.toNat,
        (sample_fidelities st.info_sources.length st.n_init.toNat).getD i 0
          = 1 + ((i % st.info_sources.length : ℕ) : ℤ) := by
  refine ⟨_, rfl, ?_⟩
  exact mumbo_warm_start_fidelities (HPType.uniformFloat 0 1) 0 1
    ⟨3, 2, 1, true, 10, 20⟩ 2 _ rfl
    (by show 1 ≤ (np_linspace 0 1 3).length
        rw [np_linspace_length]
        omega)

/-!
Part 3 embeds the command-line surface of `validate_benchmark.py`
(lines 144-158): an `argparse` parser with exactly four registered options,
`parse_known_args`, and the hand-off of the unrecognized remainder to
`transform_unknown_params_to_dict`.
-/

/-- The parsed namespace: the four options registered on lines 150-153. -/
structure VBArgs where
  output_dir : String
  benchmark : String
  rng : ℤ
  recompute_all : Bool
deriving DecidableEq, Repr

/-- Scanner state: seen option values and the unrecognized remainder. -/
structure ParseAcc where
  output_dir : Option String
  benchmark : Option String
  rng : Option ℤ
  recompute_all : Bool
  unknown : List String
deriving DecidableEq, Repr

/-- The option tokens the parser of lines 150-153 recognizes. -/
def recognizedOptions : List String :=
  ["--output_dir", "--benchmark", "--rng", "--recompute_all"]

/-- The argument scanner of `parse_known_args` specialized to the parser of
lines 150-153: an exact `--name` token consumes its value
(`--recompute_all` is a `store_true` flag), `--benchmark` values are
checked against the known benchmark names (`choices=get_benchmark_names()`),
`--rng` values must parse as integers (`type=int`), and every other token
is collected verbatim as unrecognized.  `toInt` is the `type=int`
converter of line 152 (Python's built-in `int`). -/
def scanArgs (names : List String) (toInt : String → Option ℤ) :
    List String → ParseAcc → Except String ParseAcc
  | [], acc => Except.ok acc
  | t :: rest, acc =>
      if t = "--output_dir" then
        match rest with
        | [] => Except.error "argument --output_dir: expected one argument"
        | v :: rest' =>
            scanArgs names toInt rest' { acc with output_dir := some v }
      else if t = "--benchmark" then
        match rest with
        | [] => Except.error "argument --benchmark: expected one argument"
        | v :: rest' =>
            if v ∈ names then
              scanArgs names toInt rest' { acc with benchmark := some v }
            else Except.error "argument --benchmark: invalid choice"
      else if t = "--rng" then
        match rest with
        | [] => Except.error "argument --rng: expected one argument"
        | v :: rest' =>
            match toInt v with
            | none => Except.error "argument --rng: invalid int value"
            | some z => scanArgs names toInt rest' { acc with rng := some z }
      else if t = "--recompute_all" then
        scanArgs names toInt rest { acc with recompute_all := true }
      else
        scanArgs names toInt rest { acc with unknown := acc.unknown ++ [t] }

/-- Line 155, `parser.parse_known_args()`: scan the tokens, then apply the
defaults (`rng = 0` from line 152, `recompute_all = False` from line 153)
and enforce the two `required=True` options of lines 150-151. -/
def parse_known_args (names : List String) (toInt : String → Option ℤ)
    (argv : List String) : Except String (VBArgs × List String) :=
  match scanArgs names toInt argv ⟨none, none, none, false, []⟩ with
  | Except.error e => Except.error e
  | Except.ok acc =>
      match acc.output_dir, acc.benchmark with
      | some od, some b =>
          Except.ok ({ output_dir := od, benchmark := b,
                       rng := acc.rng.getD 0,
                       recompute_all := acc.recompute_all }, acc.unknown)
      | _, _ => Except.error "the following arguments are required"

/-- Leading `--` of an option-like token. -/
def stripDashes (s : String) : String :=
  if s.startsWith "--" then s.drop 2 else s

/-- Modelled from the spec: `transform_unknown_params_to_dict` lives in
`HPOlibExperimentUtils.utils.runner_utils`, which is not under `src/`.  Per
the spec ("plus arbitrary benchmark-specific keyword parameters") it turns
the unrecognized remainder into benchmark keyword parameters: consecutive
`--key value` pairs become dictionary entries. -/
def transform_unknown_params_to_dict : List String → List (String × String)
  | k :: v :: rest => (stripDashes k, v) :: transform_unknown_params_to_dict rest
  | _ => []

/-- The parsed CLI: the namespace plus the benchmark-specific parameters. -/
structure ParsedCLI where
  args : VBArgs
  benchmark_params : List (String × String)
deriving DecidableEq, Repr

/-- Lines 144-158 of the script body: parse the known options and transform
every unrecognized token into a benchmark-specific keyword parameter, both
of which are then passed to `validate_benchmark`. -/
def cli_main (names : List String) (toInt : String → Option ℤ)
    (argv : List String) : Except String ParsedCLI :=
  match parse_known_args names toInt argv with
  | Except.error e => Except.error e
  | Except.ok (args, unknown) =>
      Except.ok { args := args,
                  benchmark_params := transform_unknown_params_to_dict unknown }

theorem scanArgs_unrecognized (names : List String) (toInt : String → Option ℤ)
    (extra : List String)
    (hextra : ∀ t ∈ extra, t ∉ recognizedOptions) :
    ∀ acc : ParseAcc, scanArgs names toInt extra acc
      = Except.ok { acc with unknown := acc.unknown ++ extra } := by
  induction extra with
  | nil =>
      intro acc
      simp [scanArgs]
  | cons t rest ih =>
      intro acc
      have ht := hextra t (List.mem_cons_self t rest)
      simp only [recognizedOptions, List.mem_cons, List.mem_singleton,
        List.not_mem_nil] at ht
      push_neg at ht
      obtain ⟨h1, h2, h3, h4, _⟩ := ht
      rw [scanArgs.eq_def]
      simp only [if_neg h1, if_neg h2, if_neg h3, if_neg h4]
      rw [ih (fun u hu => hextra u (List.mem_cons_of_mem t hu))]
      simp

theorem scanArgs_output_dir_step (names : List String)
    (toInt : String → Option ℤ) (v : String)
    (rest : List String) (acc : ParseAcc) :
    scanArgs names toInt ("--output_dir" :: v :: rest) acc
      = scanArgs names toInt rest { acc with output_dir := some v } := by
  rw [scanArgs.eq_def]
  simp

theorem scanArgs_benchmark_step (names : List String)
    (toInt : String → Option ℤ) (v : String)
    (rest : List String) (acc : ParseAcc) (hv : v ∈ names) :
    scanArgs names toInt ("--benchmark" :: v :: rest) acc
      = scanArgs names toInt rest { acc with benchmark := some v } := by
  rw [scanArgs.eq_def]
  simp [hv]

theorem scanArgs_benchmark_bad (names : List String)
    (toInt : String → Option ℤ) (v : String)
    (rest : List String) (acc : ParseAcc) (hv : v ∉ names) :
    scanArgs names toInt ("--benchmark" :: v :: rest) acc
      = Except.error "argument --benchmark: invalid choice" := by
  rw [scanArgs.eq_def]
  simp [hv]

theorem scanArgs_rng_step (names : List String) (toInt : String → Option ℤ)
    (v : String) (z : ℤ)
    (rest : List String) (acc : ParseAcc) (hv : toInt v = some z) :
    scanArgs names toInt ("--rng" :: v :: rest) acc
      = scanArgs names toInt rest { acc with rng := some z } := by
  rw [scanArgs.eq_def]
  simp [hv]

theorem scanArgs_recompute_step (names : List String)
    (toInt : String → Option ℤ)
    (rest : List String) (acc : ParseAcc) :
    scanArgs names toInt ("--recompute_all" :: rest) acc
      = scanArgs names toInt rest { acc with recompute_all := true } := by
  rw [scanArgs.eq_def]
  simp

/-- **C6**: the validation script's command-line interface accepts exactly
the named options `--output_dir` (required), `--benchmark` (required,
restricted to the known benchmark names), `--rng` (optional, default 0) and
`--recompute_all` (flag, default false), and every unrecognized argument is
transformed into a benchmark-specific keyword parameter passed through to
`validate_benchmark`. -/
theorem cli_surface (names : List String) (toInt : String → Option ℤ)
    (d b rs : String) (r : ℤ)
    (extra : List String) (hextra : ∀ t ∈ extra, t ∉ recognizedOptions)
    (hr : toInt rs = some r) :
    (b ∈ names →
      cli_main names toInt (["--output_dir", d, "--benchmark", b] ++ extra)
        = Except.ok ⟨⟨d, b, 0, false⟩, transform_unknown_params_to_dict extra⟩) ∧
    (b ∈ names →
      cli_main names toInt (["--output_dir", d, "--benchmark", b, "--rng", rs,
          "--recompute_all"] ++ extra)
        = Except.ok ⟨⟨d, b, r, true⟩, transform_unknown_params_to_dict extra⟩) ∧
    (b ∉ names →
      cli_main names toInt (["--output_dir", d, "--benchmark", b] ++ extra)
        = Except.error "argument --benchmark: invalid choice") ∧
    (∃ e, cli_main names toInt (["--benchmark", b] ++ extra) = Except.error e) ∧
    (cli_main names toInt (["--output_dir", d] ++ extra)
      = Except.error "the following arguments are required") := by
  refine ⟨?_, ?_, ?_, ?_, ?_⟩
  · intro hb
    have hs : scanArgs names toInt
        ("--output_dir" :: d :: "--benchmark" :: b :: extra)
        ⟨none, none, none, false, []⟩
        = Except.ok ⟨some d, some b, none, false, extra⟩ := by
      rw [scanArgs_output_dir_step, scanArgs_benchmark_step _ _ _ _ _ hb,
        scanArgs_unrecognized names toInt extra hextra]
      rfl
    simp [cli_main, parse_known_args, hs]
  · intro hb
    have hs : scanArgs names toInt ("--output_dir" :: d :: "--benchmark" :: b
          :: "--rng" :: rs :: "--recompute_all" :: extra)
        ⟨none, none, none, false, []⟩
        = Except.ok ⟨some d, some b, some r, true, extra⟩ := by
      rw [scanArgs_output_dir_step, scanArgs_benchmark_step _ _ _ _ _ hb,
        scanArgs_rng_step _ _ _ r _ _ hr, scanArgs_recompute_step,
        scanArgs_unrecognized names toInt extra hextra]
      rfl
    simp [cli_main, parse_known_args, hs]
  · intro hb
    have hs : scanArgs names toInt
        ("--output_dir" :: d :: "--benchmark" :: b :: extra)
        ⟨none, none, none, false, []⟩
        = Except.error "argument --benchmark: invalid choice" := by
      rw [scanArgs_output_dir_step, scanArgs_benchmark_bad _ _ _ _ _ hb]
    simp [cli_main, parse_known_args, hs]
  · by_cases hb : b ∈ names
    · have hs : scanArgs names toInt ("--benchmark" :: b :: extra)
          ⟨none, none, none, false, []⟩
          = Except.ok ⟨none, some b, none, false, extra⟩ := by
        rw [scanArgs_benchmark_step _ _ _ _ _ hb,
          scanArgs_unrecognized names toInt extra hextra]
        rfl
      exact ⟨"the following arguments are required",
        by simp [cli_main, parse_known_args, hs]⟩
    · have hs : scanArgs names toInt ("--benchmark" :: b :: extra)
          ⟨none, none, none, false, []⟩
          = Except.error "argument --benchmark: invalid choice" :=
        scanArgs_benchmark_bad names toInt b extra _ hb
      exact ⟨"argument --benchmark: invalid choice",
        by simp [cli_main, parse_known_args, hs]⟩
  · have hs : scanArgs names toInt ("--output_dir" :: d :: extra)
        ⟨none, none, none, false, []⟩
        = Except.ok ⟨some d, none, none, false, extra⟩ := by
      rw [scanArgs_output_dir_step, scanArgs_unrecognized names toInt extra hextra]
      rfl
    simp [cli_main, parse_known_args, hs]

/-- **C6** witness: `--output_dir` and `--benchmark` with a known name plus
the unrecognized pair `--task_id 167`, which becomes the benchmark-specific
keyword parameter `task_id = 167`; `rng` and `recompute_all` take their
defaults. -/
theorem cli_surface_witness :
    ("xgboost" ∈ ["xgboost", "cartpolereduced"]) ∧
    cli_main ["xgboost", "cartpolereduced"] (fun _ => some 5)
        (["--output_dir", "results", "--benchmark", "xgboost"]
          ++ ["--task_id", "167"])
      = Except.ok ⟨⟨"results", "xgboost", 0, false⟩,
          transform_unknown_params_to_dict ["--task_id", "167"]⟩ := by
  have h := cli_surface ["xgboost", "cartpolereduced"] (fun _ => some 5)
    "results" "xgboost" "5" 5 ["--task_id", "167"] (by decide) rfl
  exact ⟨by decide, h.1 (by decide)⟩
